import Mathlib

/-!
Verification development for the ScriptedBibleEditor text-transformation
engine (src/Python/ScriptedBibleEditor.py).  The Python source is shallowly
embedded: strings are `String`/`List Char`, fallible code (failing `assert`
statements, the undefined-name debug traps `halt` and
`not_written_for_removing_word_number_yet`, `int()` parse errors) is modelled
with `Except String`, and the `logging.critical` abort in the loop replacer is
surfaced as a `Bool` flag in the result.  Python scans that advance by the
length of a match are written with an explicit skip counter (or fuel) so that
every definition is structurally recursive and kernel-computable.
-/

deriving instance DecidableEq for Except

namespace SBE

/-- `EditCommand`, the 15-field record of ScriptedBibleEditor.py (lines 74-89). -/
structure EditCommand where
  tags : String
  iBooks : List String
  eBooks : List String
  iMarkers : List String
  eMarkers : List String
  iRefs : List String
  eRefs : List String
  preText : String
  sCase : String
  searchText : String
  postText : String
  rCase : String
  replaceText : String
  name : String
  comment : String
  deriving DecidableEq, Repr

/-! ### Python string primitives -/

/-- Python `str.find(ch)` on a character: index of first occurrence, or none. -/
def pyFindChar (c : Char) : List Char → Option Nat
  | [] => none
  | x :: rest => if x = c then some 0 else (pyFindChar c rest).map (· + 1)

/-- Python `str.count(sub)` for non-empty `sub`: number of non-overlapping
occurrences, scanning left to right.  `skip` chars at the front are already
committed to a previous match and cannot start a new one. -/
def countAux (s : List Char) (skip : Nat) : List Char → Nat
  | [] => 0
  | c :: rest =>
    match skip with
    | k + 1 => countAux s k rest
    | 0 =>
      if s.isPrefixOf (c :: rest) then 1 + countAux s (s.length - 1) rest
      else countAux s 0 rest

/-- Non-overlapping occurrence count of a non-empty pattern (Python `count`). -/
def countOccs (s t : List Char) : Nat := countAux s 0 t

/-- Python `str.count`, including Python's convention for the empty pattern
(`t.count('') == len(t) + 1`). -/
def pyCount (s t : List Char) : Nat :=
  if s = [] then t.length + 1 else countOccs s t

/-- Python `str.replace(old, new)` for non-empty `old` (all non-overlapping
occurrences, left to right), with a skip counter as in `countAux`. -/
def replaceAux (s r : List Char) (skip : Nat) : List Char → List Char
  | [] => []
  | c :: rest =>
    match skip with
    | k + 1 => replaceAux s r k rest
    | 0 =>
      if s.isPrefixOf (c :: rest) then r ++ replaceAux s r (s.length - 1) rest
      else c :: replaceAux s r 0 rest

/-- Python `str.replace(old, new)` (empty `old` inserts `new` at every seam). -/
def pyReplace (s r t : List Char) : List Char :=
  if s = [] then r ++ (t.flatMap fun c => c :: r)
  else replaceAux s r 0 t

/-- Python `str.replace(old, new, 1)` for non-empty `old`: first occurrence only. -/
def pyReplace1 (s r : List Char) : List Char → List Char
  | [] => []
  | c :: rest =>
    if s.isPrefixOf (c :: rest) then r ++ (c :: rest).drop s.length
    else c :: pyReplace1 s r rest

/-- Start offsets of all non-overlapping occurrences of non-empty `s`
(the index-collection loop of the distance branch, lines 558-564). -/
def collectIdxAux (s : List Char) (skip pos : Nat) : List Char → List Nat
  | [] => []
  | c :: rest =>
    match skip with
    | k + 1 => collectIdxAux s k (pos + 1) rest
    | 0 =>
      if s.isPrefixOf (c :: rest) then pos :: collectIdxAux s (s.length - 1) (pos + 1) rest
      else collectIdxAux s 0 (pos + 1) rest

def collectIdx (s t : List Char) : List Nat := collectIdxAux s 0 0 t

/-- Python `line.rstrip('\r')`: drop every trailing carriage return. -/
def rstripCR (l : String) : String :=
  String.mk ((l.toList.reverse.dropWhile (· = '\r')).reverse)

/-- Python `text.split(' ')[0]`: the prefix before the first space character. -/
def firstSpaceToken (s : String) : String :=
  String.mk (s.toList.takeWhile (· ≠ ' '))

/-- Python's substring test `sub in s` (also used for `str.find(sub) != -1`). -/
def containsSub (s : List Char) : List Char → Bool
  | [] => s.isEmpty
  | c :: rest => s.isPrefixOf (c :: rest) || containsSub s rest

/-- The Python splice `text[:i] + r + text[i+len:]` (non-negative `i`). -/
def splice (t : List Char) (i len : Nat) (r : List Char) : List Char :=
  t.take i ++ r ++ t.drop (i + len)

/-! ### splitUSFMMarkerFromText (source lines 490-533) -/

/-- `DUMMY_VALUE`, "some number bigger than the number of characters in a line". -/
def DUMMY_VALUE : Nat := 999999

/-- `splitUSFMMarkerFromText`: split one line into an optional backslash marker
and the remaining text (source lines 490-533, including the `DUMMY_VALUE`
index bookkeeping). -/
def splitUSFMMarkerFromText (line : String) : Option String × String :=
  match line.toList with
  | [] => (none, "")
  | c :: rest =>
    if c ≠ '\\' then (none, line)
    else
      let ixSP := (pyFindChar ' ' rest).getD DUMMY_VALUE
      let ixAS := (pyFindChar '*' rest).getD DUMMY_VALUE
      let ixBS := (pyFindChar '\\' rest).getD DUMMY_VALUE
      let ix := min (min ixSP ixAS) ixBS
      if ix = DUMMY_VALUE then (some (String.mk rest), "")
      else if ix = ixBS then
        if ixBS + 1 < rest.length ∧ rest.getD (ixBS + 1) ' ' = '*' then
          (some (String.mk (rest.take (ixBS + 2))), String.mk (rest.drop (ixBS + 2)))
        else
          (some (String.mk (rest.take ixBS)), String.mk (rest.drop ixBS))
      else if ix = ixAS then
        (some (String.mk (rest.take (ixAS + 1))), String.mk (rest.drop (ixAS + 1)))
      else
        (some (String.mk (rest.take ixSP)), String.mk (rest.drop (ixSP + 1)))

/-! ### executeEditChunkCommand, the plain chunk replacer (source lines 536-612) -/

/-- `STANDARD_DISTANCE` (source line 536). -/
def STANDARD_DISTANCE : Nat := 2500

/-- Length of the lazy body of `re.sub('\\\\add .+?\\\\add[*]', …)`: the least
`k ≥ 1` such that `k` non-newline chars are followed by `\add*`. -/
def addBodyLen : List Char → Option Nat
  | [] => none
  | c :: rest =>
    if c = '\n' then none
    else if "\\add*".toList.isPrefixOf rest then some 1
    else (addBodyLen rest).map (· + 1)

/-- `re.sub('\\\\add .+?\\\\add[*]', '', text)`: remove every (leftmost,
non-overlapping, lazy) `\add …\add*` span (source line 556). -/
def stripAddAux (skip : Nat) : List Char → List Char
  | [] => []
  | c :: rest =>
    match skip with
    | k + 1 => stripAddAux k rest
    | 0 =>
      if "\\add ".toList.isPrefixOf (c :: rest) then
        match addBodyLen ((c :: rest).drop 5) with
        | some k => stripAddAux (5 + k + 5 - 1) rest
        | none => c :: stripAddAux 0 rest
      else c :: stripAddAux 0 rest

def stripAddSpans (l : List Char) : List Char := stripAddAux 0 l

/-- The short replacement form of the distance branch (lines 555-556): the
part before the first `/` when the replacement contains one, else the
replacement with its `\add …\add*` spans stripped. -/
def shortFormOf (repl : List Char) : List Char :=
  if '/' ∈ repl then repl.takeWhile (· ≠ '/') else stripAddSpans repl

/-- The `l`-tag loop of lines 597-604: repeat the global replace while the
search text still occurs; abort (the `logging.critical` branch, reported here
as a `true` flag) when a pass fails to strictly decrease the occurrence count.
`lastCount` is the count after the previous pass; the fuel argument is called
with `lastCount + 1`, which always suffices because the count strictly
decreases on every continuing pass. -/
def loopReplaceF (s r : List Char) : Nat → Nat → List Char → List Char × Bool
  | 0, _, t => (t, false)
  | fuel + 1, lastCount, t =>
    if containsSub s t then
      let t' := pyReplace s r t
      let newCount := pyCount s t'
      if lastCount ≤ newCount then (t', true)
      else loopReplaceF s r fuel newCount t'
    else (t, false)

/-- Accumulator of the distance-attenuation loop (lines 570-589):
current text, cumulative length delta of prior edits, original-text offset of
the last full replacement, and the two replacement counters. -/
structure DistAcc where
  text : List Char
  offset : Int
  lastFull : Nat
  numFull : Nat
  numShort : Nat
  deriving Repr, DecidableEq

/-- The `for jj in range(1, sourceCount)` loop of lines 573-589: each
subsequent occurrence is patched at its delta-adjusted position with the full
replacement when its original-offset distance from the last full replacement
reaches `STANDARD_DISTANCE`, and with the short form otherwise. -/
def distLoop (search longR shortR : List Char) : List Nat → DistAcc → DistAcc
  | [], acc => acc
  | idx :: rest, acc =>
    let adjIdx := ((idx : Int) + acc.offset).toNat
    if (STANDARD_DISTANCE : Int) ≤ (idx : Int) - (acc.lastFull : Int) then
      distLoop search longR shortR rest
        ⟨splice acc.text adjIdx search.length longR,
         acc.offset + ((longR.length : Int) - (search.length : Int)),
         idx, acc.numFull + 1, acc.numShort⟩
    else
      distLoop search longR shortR rest
        ⟨splice acc.text adjIdx search.length shortR,
         acc.offset + ((shortR.length : Int) - (search.length : Int)),
         acc.lastFull, acc.numFull, acc.numShort + 1⟩

/-- `executeEditChunkCommand` (lines 537-612).  The returned `Bool` records
whether the `ABORTED endless loop` critical condition was logged.  Failing
`assert` statements on data-dependent conditions (lines 544, 553, 554) become
`Except.error`; the internal consistency asserts of the distance branch
(lines 565, 577, 591) are always-true invariants of these definitions and are
established by the theorems below rather than re-checked at run time. -/
def executeEditChunkCommand (whereStr inputText : String) (c : EditCommand) :
    Except String (String × Bool) :=
  if ¬(c.preText = "" ∧ c.postText = "" ∧ 'w' ∉ c.tags.toList) then
    .error "assert failed: plain replacer needs no preText, postText or w tag"
  else
    let search := c.searchText.toList
    let repl := c.replaceText.toList
    let text := inputText.toList
    let sourceCount := pyCount search text
    if 0 < sourceCount then
      if 'd' ∈ c.tags.toList ∧ 1 < sourceCount ∧ STANDARD_DISTANCE < text.length then
        if 'l' ∈ c.tags.toList then .error "assert failed: d and l tags together"
        else if ¬('/' ∈ repl ∨ containsSub "\\add ".toList repl) then
          .error "assert failed: d flag needs a short form in the replacement"
        else
          let shortReplaceText := shortFormOf repl
          match collectIdx search text with
          | [] => .error "unreachable: sourceCount positive but no index found"
          | i0 :: restIdxs =>
            let t1 := pyReplace1 search repl text
            let res := distLoop search repl shortReplaceText restIdxs
              ⟨t1, (repl.length : Int) - (search.length : Int), i0, 1, 0⟩
            .ok (String.mk res.text, false)
      else
        let t1 := pyReplace search repl text
        let lastCount := pyCount search t1
        if 'l' ∈ c.tags.toList then
          let res := loopReplaceF search repl (lastCount + 1) lastCount t1
          .ok (String.mk res.1, res.2)
        else .ok (String.mk t1, false)
    else .ok (inputText, false)

/-! ### executeRegexEditChunkCommand, the contextual regex replacer
(source lines 615-754)

The source builds a regex from `searchText` by expanding every `¦` to
`¦[1-9][0-9]{0,5}` and doubling backslashes (`escape_backslash`), so that for
search texts free of regex metacharacters the compiled pattern matches the
literal search text with each `¦` followed by a 1-6 digit word-link number
(first digit non-zero, greedy with backtracking).  The matcher below
interprets exactly that pattern language directly over `searchText`; commands
using `preText`/`postText`/the `w` word-boundary tag, or search text
containing regex metacharacters, are outside the modelled fragment and yield
a modelling error. -/

/-- `escape_backslash` (line 615-616): double every backslash. -/
def escapeBackslash (l : List Char) : List Char :=
  pyReplace ['\\'] ['\\', '\\'] l

/-- Undo `escape_backslash`: the `.replace('\\\\', '\\')` of lines 695/710. -/
def unescapeBackslash (l : List Char) : List Char :=
  pyReplace ['\\', '\\'] ['\\'] l

def isAsciiDigitChar (c : Char) : Bool := '0' ≤ c ∧ c ≤ '9'

def isNonZeroDigitChar (c : Char) : Bool := '1' ≤ c ∧ c ≤ '9'

/-- Regex metacharacters: search texts containing none of these (backslash
excluded, since `escape_backslash` makes backslashes literal) are matched
literally by the compiled pattern. -/
def regexMetaChars : List Char := "().[]\x7b\x7d*+?|^$".toList

def literalSearchText (s : String) : Bool :=
  s.toList.all fun c => ¬ regexMetaChars.contains c

/-- Does `l` start with `j` digits forming a valid word-link number tail
(`[1-9][0-9]{0,5}` of total length exactly `j`)? -/
def wlDigitsOk (l : List Char) (j : Nat) : Bool :=
  ((l.take j).length = j : Bool) &&
    (match l with
     | d :: ds => isNonZeroDigitChar d && (ds.take (j - 1)).all isAsciiDigitChar
     | [] => false)

/-- Match the expanded search pattern at the head of `t`: literal characters
match themselves and each `¦` of the pattern consumes `¦` plus 1-6 digits,
greedily with backtracking (the regex `¦[1-9][0-9]{0,5}` as an atomic unit
inside a longer pattern).  Returns the number of consumed characters.  The
fuel is always called with `pat.length + 1`. -/
def patMatchLenF : Nat → List Char → List Char → Option Nat
  | 0, _, _ => none
  | fuel + 1, pat, t =>
    match pat with
    | [] => some 0
    | p :: ps =>
      if p = '¦' then
        match t with
        | c :: t' =>
          if c = '¦' then
            [6, 5, 4, 3, 2, 1].findSome? fun j =>
              if wlDigitsOk t' j then
                (patMatchLenF fuel ps (t'.drop j)).map fun m => 1 + j + m
              else none
          else none
        | [] => none
      else
        match t with
        | c :: t' => if c = p then (patMatchLenF fuel ps t').map (· + 1) else none
        | [] => none

def patMatchLen (pat t : List Char) : Option Nat :=
  patMatchLenF (pat.length + 1) pat t

/-- Leftmost match of the pattern in a suffix: returns (offset, length). -/
def searchSuffix (pat : List Char) : List Char → Option (Nat × Nat)
  | [] =>
    match patMatchLen pat [] with
    | some m => some (0, m)
    | none => none
  | c :: rest =>
    match patMatchLen pat (c :: rest) with
    | some m => some (0, m)
    | none => (searchSuffix pat rest).map fun om => (om.1 + 1, om.2)

/-- `compiledSearchRegex.search(text, pos)`: leftmost match at or after `pos`,
as (start, length). -/
def searchFrom (pat text : List Char) (pos : Nat) : Option (Nat × Nat) :=
  (searchSuffix pat (text.drop pos)).map fun om => (pos + om.1, om.2)

/-- `wordLinkRegex.finditer`: the digit strings of all (leftmost,
non-overlapping, greedy) `¦[1-9][0-9]{0,5}` matches, in order of appearance
(lines 700-705). -/
def findWLAux (skip : Nat) : List Char → List (List Char)
  | [] => []
  | c :: rest =>
    match skip with
    | k + 1 => findWLAux k rest
    | 0 =>
      if c = '¦' then
        match rest.takeWhile isAsciiDigitChar with
        | [] => findWLAux 0 rest
        | d :: ds =>
          if isNonZeroDigitChar d then
            let idStr := (d :: ds).take 6
            idStr :: findWLAux idStr.length rest
          else findWLAux 0 rest
      else findWLAux 0 rest

def findWordLinkIds (t : List Char) : List (List Char) := findWLAux 0 t

/-- `wordLinkRegex.search` (line 690): the first word-link number. -/
def firstWordLinkId (t : List Char) : Option (List Char) :=
  (findWordLinkIds t).head?

/-- The distinct members of `wordLinkNumberStringsSet`, first occurrences kept
(the order is irrelevant: the set is only sorted or popped as a singleton). -/
def dedupAux (seen : List (List Char)) : List (List Char) → List (List Char)
  | [] => []
  | x :: xs => if x ∈ seen then dedupAux seen xs else x :: dedupAux (x :: seen) xs

def dedupIds (l : List (List Char)) : List (List Char) := dedupAux [] l

/-- Python string `<`: lexicographic comparison by code point. -/
def lexLt : List Char → List Char → Bool
  | [], [] => false
  | [], _ :: _ => true
  | _ :: _, [] => false
  | a :: as, b :: bs => if a < b then true else if a = b then lexLt as bs else false

def insertLex (x : List Char) : List (List Char) → List (List Char)
  | [] => [x]
  | y :: ys => if lexLt x y then x :: y :: ys else y :: insertLex x ys

/-- `sorted(wordLinkNumberStringsSet)` (line 706). -/
def sortLex : List (List Char) → List (List Char)
  | [] => []
  | x :: xs => insertLex x (sortLex xs)

/-- Python `str.split(sep)` for a one-character separator. -/
def splitOnChar (sep : Char) : List Char → List (List Char)
  | [] => [[]]
  | c :: rest =>
    let groups := splitOnChar sep rest
    if c = sep then [] :: groups
    else
      match groups with
      | g :: gs => (c :: g) :: gs
      | [] => [[c]]

/-- Python `str.split(' ')`: split on every single space character. -/
def splitOnSpace (l : List Char) : List (List Char) := splitOnChar ' ' l

/-- `sep.join(strings)` for a one-character separator. -/
def joinWithChar (sep : Char) : List (List Char) → List Char
  | [] => []
  | [x] => x
  | x :: xs => x ++ sep :: joinWithChar sep xs

/-- `' '.join(words)` (line 732). -/
def joinSpace : List (List Char) → List Char
  | [] => []
  | [w] => w
  | w :: ws => w ++ ' ' :: joinSpace ws

/-- The per-word zip loop of lines 722-731: each positional word of the
replacement template receives the id drawn from the SORTED id set (with the
source's `assert` checks), not the id of the same-positioned matched word. -/
def zipReplaceWords : List (List Char) → List (List Char) → List (List Char) →
    Except String (List (List Char))
  | rw :: rws, fw :: fws, idStr :: ids =>
    if ¬ containsSub idStr fw then
      .error "assert failed: wordNumber in foundWord"
    else if ¬ ('¦' ∈ fw) then .error "assert failed: broken pipe in foundWord"
    else if ¬ ('¦' ∈ rw) then .error "assert failed: broken pipe in replaceWord"
    else
      (zipReplaceWords rws fws ids).map (pyReplace ['¦'] ('¦' :: idStr) rw :: ·)
  | _, _, _ => .ok []

/-- The expanded-and-escaped search pattern string
`f'({escape_backslash(searchText.replace("¦", wordLinkRegexString))})'`
(lines 634-635). -/
def myRegexSearchStringOf (searchText : List Char) : List Char :=
  '(' :: escapeBackslash (pyReplace ['¦'] ("¦[1-9][0-9]\x7b0,5\x7d".toList) searchText)
    ++ [')']

/-- Compute the concrete replacement for one match in the word-link branch
(lines 686-733).  `origRepl` is `originalMyRegexReplaceString`,
`cur` the current `myRegexReplaceString`, `found` the matched span. -/
def wordLinkReplacement (searchText origRepl cur found : List Char)
    (searchPipeCount : Nat) : Except String (List Char) :=
  let replaceBrokenPipeCount := cur.count '¦'
  if replaceBrokenPipeCount = 0 then
    .error "NameError: not_written_for_removing_word_number_yet"
  else if searchPipeCount = 1 then
    match firstWordLinkId found with
    | none => .error "AttributeError: wordLinkRegex found no match"
    | some idStr =>
      .ok (unescapeBackslash (pyReplace ['¦'] ('¦' :: idStr) origRepl))
  else
    let idsList := findWordLinkIds found
    let idsSet := dedupIds idsList
    if h : idsSet.length = 1 then
      .ok (unescapeBackslash
        (pyReplace ['¦'] ('¦' :: idsSet.head (by intro he; simp [he] at h)) origRepl))
    else
      let orderedSet := sortLex idsSet
      let searchWords := splitOnSpace (myRegexSearchStringOf searchText)
      let replaceWords := splitOnSpace origRepl
      let foundWords := splitOnSpace found
      let numWords := searchWords.length
      if ¬ 2 ≤ numWords then .error "assert failed: more than one word expected"
      else if ¬ (numWords = replaceWords.length ∧ numWords = foundWords.length ∧
                 numWords = orderedSet.length) then
        .error "assert failed: same number of words expected"
      else
        (zipReplaceWords replaceWords foundWords orderedSet).map joinSpace

/-- The `while True` scan of lines 669-743: find the next match at or after
the cursor, compute the literal replacement, splice it in, and advance the
cursor past the inserted text.  The fuel is called with `text.length + 1`,
which suffices since every iteration strictly decreases
`text.length - cursor`. -/
def wordLinkLoop (searchText origRepl : List Char) (searchPipeCount : Nat) :
    Nat → List Char → Nat → List Char → Except String (List Char)
  | 0, _, _, _ => .error "model: search fuel exhausted"
  | fuel + 1, text, startIdx, cur =>
    match searchFrom searchText text startIdx with
    | none => .ok text
    | some (ms, ml) =>
      match wordLinkReplacement searchText origRepl cur ((text.drop ms).take ml)
          searchPipeCount with
      | .error e => .error e
      | .ok newRepl =>
        wordLinkLoop searchText origRepl searchPipeCount fuel
          (text.take ms ++ newRepl ++ text.drop (ms + ml)) (ms + newRepl.length) newRepl

/-- The no-word-link branch (lines 744-751): global regex substitution, with
an unguarded repeat-while-replacing loop under the `l` tag.  For literal
patterns the substitution is a plain global replace.  Unlike the plain
replacer's loop this one has no abort guard, so it is fuelled. -/
def subnLoop (s r : List Char) (loopTag : Bool) : Nat → List Char →
    Except String (List Char)
  | 0, _ => .error "model: subn loop fuel exhausted"
  | fuel + 1, t =>
    let numReplacements := pyCount s t
    let t' := pyReplace s r t
    if numReplacements = 0 ∨ loopTag = false then .ok t'
    else subnLoop s r loopTag fuel t'

/-- `executeRegexEditChunkCommand` (lines 621-754), modelled for commands
without `preText`/`postText`/the `w` tag and with metacharacter-free search
text (the word-link fragment; other shapes return a modelling error).  The
undefined-name crash of line 737 and the failing asserts become
`Except.error`. -/
def executeRegexEditChunkCommand (whereStr inputText : String) (c : EditCommand) :
    Except String String :=
  if ¬ (c.preText = "" ∧ c.postText = "" ∧ 'w' ∉ c.tags.toList ∧
        literalSearchText c.searchText = true) then
    .error "model: regex command shape outside the modelled fragment"
  else
    let search := c.searchText.toList
    let text := inputText.toList
    let searchBrokenPipeCount := search.count '¦'
    let myRegexReplaceString := escapeBackslash c.replaceText.toList
    if 0 < searchBrokenPipeCount then
      (wordLinkLoop search myRegexReplaceString searchBrokenPipeCount
        (text.length + 1) text 0 myRegexReplaceString).map String.mk
    else
      if '¦' ∈ myRegexReplaceString then
        .error "assert failed: broken pipe in replacement but not in search"
      else
        (subnLoop search myRegexReplaceString ('l' ∈ c.tags.toList)
          (text.length + 2) text).map String.mk

/-! ### executeEditCommands: dispatcher, reference tracking and filters
(source lines 414-487) -/

/-- The per-document scan state of the structured mode: chapter `C`, verse
`V` (strings, sentinel `"-1"`), and `lastMarker` (`marker` of the previous
processed non-blank line; the source assigns `lastMarker = marker`
unconditionally at line 454). -/
structure ScanState where
  C : String
  V : String
  lastMarker : Option String
  deriving DecidableEq, Repr

/-- Digit-string accumulator for `pyInt` (structural, kernel-computable). -/
def digitsToNatAux (acc : Nat) : List Char → Option Nat
  | [] => some acc
  | c :: rest =>
    if isAsciiDigitChar c then
      digitsToNatAux (acc * 10 + (c.toNat - '0'.toNat)) rest
    else none

def digitsToNat : List Char → Option Nat
  | [] => none
  | l => digitsToNatAux 0 l

/-- Python `int(s)` on the sign-and-digits strings this program produces
(an optional leading minus followed by decimal digits); anything else is a
`ValueError`. -/
def pyInt (s : String) : Option Int :=
  match s.toList with
  | '-' :: rest => (digitsToNat rest).map fun n => -(n : Int)
  | l => (digitsToNat l).map fun n => (n : Int)

/-- `if C == '-1': V = str(int(V) + 1)` (line 443); Python `int()` failure is
an error. -/
def autoV (st : ScanState) : Option String :=
  if st.C = "-1" then (pyInt st.V).map (fun n => toString (n + 1)) else some st.V

/-- `effectiveMarker = lastMarker if marker is None else marker` (line 453). -/
def effMarkerOf (lastMarker marker : Option String) : Option String :=
  match marker with
  | none => lastMarker
  | some m => some m

/-- Python truthiness of the optional marker string (`if effectiveMarker:`,
line 455): `None` and the empty string are falsy. -/
def markerTruthy : Option String → Bool
  | none => false
  | some s => s ≠ ""

/-- The f-string rendering of the optional marker (`f'…~{marker}'`). -/
def whereMarker : Option String → String
  | none => "None"
  | some m => m

/-- Replacer selection (lines 429-431): the regex replacer exactly when the
`w` tag is present, `preText` or `postText` is non-empty, or the search text
contains a word-link marker. -/
def regexSelected (c : EditCommand) : Bool :=
  c.tags.toList.contains 'w' || !(c.preText == "") || !(c.postText == "") ||
    c.searchText.toList.contains '¦'

/-- Apply the selected edit function, as in both branches of lines 433-483. -/
def applyEditFunction (c : EditCommand) (whereStr text : String) :
    Except String String :=
  if regexSelected c then executeRegexEditChunkCommand whereStr text c
  else (executeEditChunkCommand whereStr text c).map Prod.fst

/-- The reference checks and the transform call (lines 466-483), shared by
both paths out of the marker checks.  `st2` already carries the updated
chapter/verse.  The `halt` debug trap of line 471 is an unhandled `NameError`
in Python, hence an error here. -/
def refsAndProcess (BBB : String) (c : EditCommand) (st2 : ScanState)
    (marker : Option String) (line : String) : Except String (ScanState × String) :=
  let CVRef := st2.C ++ ":" ++ st2.V
  let BCVRef := BBB ++ "_" ++ st2.C ++ ":" ++ st2.V
  if CVRef ∈ c.eRefs then
    if CVRef ∈ c.iRefs then .error "assert failed: CVRef in both eRefs and iRefs"
    else .error "NameError: halt (excluded CV reference debug trap)"
  else if BCVRef ∈ c.eRefs then
    if BCVRef ∈ c.iRefs then .error "assert failed: BCVRef in both eRefs and iRefs"
    else .ok (st2, line)
  else if c.iRefs ≠ [] ∧ CVRef ∉ c.iRefs ∧ BCVRef ∉ c.iRefs then .ok (st2, line)
  else
    (applyEditFunction c (BCVRef ++ "~" ++ whereMarker marker) line).map
      fun t => (st2, t)

/-- The chapter/verse transitions of lines 449-452: marker `c` sets the
chapter to the text and the verse to `"0"`; marker `v` sets the verse to the
first space-delimited token of the text; otherwise the (possibly
auto-incremented) values stand. -/
def updCV (st : ScanState) (V1 : String) (marker : Option String)
    (text : String) : String × String :=
  (if marker = some "c" then text else st.C,
   if marker = some "c" then "0"
   else if marker = some "v" then firstSpaceToken text else V1)

/-- One pass of the structured-mode line loop (lines 441-483): auto-increment
the pre-chapter verse, strip trailing `\r`, pass blank lines through, parse
the marker, update the chapter/verse state and `lastMarker`, run the marker
and reference filters and, if every check passes, the selected edit function.
Returns the updated state and the emitted line.  The `halt` debug trap of
line 464 is an unhandled `NameError` in Python, hence an error here. -/
def lineStep (BBB : String) (c : EditCommand) (st : ScanState) (line0 : String) :
    Except String (ScanState × String) :=
  match autoV st with
  | none => .error "ValueError: invalid literal for int()"
  | some V1 =>
    let line := rstripCR line0
    if line = "" then .ok (⟨st.C, V1, st.lastMarker⟩, line)
    else
      let mt := splitUSFMMarkerFromText line
      let marker := mt.1
      let text := mt.2
      let cv := updCV st V1 marker text
      let effM := effMarkerOf st.lastMarker marker
      let st2 : ScanState := ⟨cv.1, cv.2, marker⟩
      if markerTruthy effM then
        if effM.getD "" ∈ c.eMarkers then
          if effM.getD "" ∈ c.iMarkers then
            .error "assert failed: marker in both eMarkers and iMarkers"
          else .ok (st2, line)
        else if c.iMarkers ≠ [] ∧ effM.getD "" ∉ c.iMarkers then
          .error "NameError: halt (not-included marker debug trap)"
        else refsAndProcess BBB c st2 marker line
      else refsAndProcess BBB c st2 marker line

/-- Fold `lineStep` over the document's lines, collecting the emitted lines. -/
def scanLines (BBB : String) (c : EditCommand) :
    ScanState → List String → Except String (List String)
  | _, [] => .ok []
  | st, l :: ls => do
    let r ← lineStep BBB c st l
    let rest ← scanLines BBB c r.1 ls
    .ok (r.2 :: rest)

/-- Apply one command to the whole document (the body of the `for command`
loop, lines 422-484): book exclusion, then unstructured whole-text mode when
every marker/reference filter set is empty, else the per-line structured
scan starting from chapter `"-1"`, verse `"-1"`, no last marker. -/
def applyCommand (BBB text : String) (c : EditCommand) : Except String String :=
  if BBB ∈ c.iBooks ∧ BBB ∈ c.eBooks then
    .error "assert failed: book in both iBooks and eBooks"
  else if BBB ∈ c.eBooks then .ok text
  else if c.iMarkers = [] ∧ c.eMarkers = [] ∧ c.iRefs = [] ∧ c.eRefs = [] then
    applyEditFunction c BBB text
  else
    (scanLines BBB c ⟨"-1", "-1", none⟩
        ((splitOnChar '\n' text.toList).map String.mk)).map
      fun ls => String.mk (joinWithChar '\n' (ls.map String.toList))

/-- `executeEditCommands` (lines 414-487): fold the commands over the text. -/
def executeEditCommands (BBB : String) : String → List EditCommand →
    Except String String
  | text, [] => .ok text
  | text, c :: cs => do
    let t ← applyCommand BBB text c
    executeEditCommands BBB t cs

/-! ### Specification-side definitions

These definitions follow the wording of the specification (not the source)
and are compared against the embedded code by the theorems below. -/

/-- Modelled from the spec: Python whitespace characters (`str.split()` with
no separator splits on these). -/
def isPyWhitespace (c : Char) : Bool :=
  c = ' ' ∨ c = '\t' ∨ c = '\n' ∨ c = '\r' ∨ c = '\x0b' ∨ c = '\x0c'

/-- Modelled from the spec: "the first whitespace-delimited token" of a
string (leading whitespace ignored, token ends at any whitespace). -/
def firstWhitespaceToken (s : String) : String :=
  String.mk ((s.toList.dropWhile isPyWhitespace).takeWhile fun c => ¬ isPyWhitespace c)

/-- Outcome of the per-line filter chain, as described by the (amended)
claim: pass the line through unchanged, abort on a debug trap or failing
assert, or hand the line to the selected replacer. -/
inductive FilterOutcome where
  | passThrough
  | trap
  | transform
  deriving DecidableEq, Repr

/-- The per-line filter decision in the claims' order, amended to match the
code: the two marker checks run only when the effective marker is truthy;
the not-included-marker check and the excluded-`CVRef` check abort (debug
traps), as does an include/exclude overlap detected by an assert; the other
firing checks pass the line through; otherwise the line is transformed. -/
def lineFilterOutcome (c : EditCommand) (effM : Option String)
    (CVRef BCVRef : String) : FilterOutcome :=
  if markerTruthy effM ∧ effM.getD "" ∈ c.eMarkers then
    (if effM.getD "" ∈ c.iMarkers then .trap else .passThrough)
  else if markerTruthy effM ∧ c.iMarkers ≠ [] ∧ effM.getD "" ∉ c.iMarkers then .trap
  else if CVRef ∈ c.eRefs then .trap
  else if BCVRef ∈ c.eRefs then
    (if BCVRef ∈ c.iRefs then .trap else .passThrough)
  else if c.iRefs ≠ [] ∧ CVRef ∉ c.iRefs ∧ BCVRef ∉ c.iRefs then .passThrough
  else .transform

/-- The distance-attenuation pass exactly as the claim words it: collect all
match start offsets in the original text, apply the full replacement at the
first occurrence, then for each subsequent occurrence - located via its
original offset adjusted by the cumulative length delta of prior edits -
apply the full replacement exactly when its original-offset distance from
the last full replacement is at least 2500 (resetting the last-full marker)
and the short form otherwise.  Returns the text and the two counters. -/
def distanceSpec (search longR shortR text : List Char) :
    List Char × Nat × Nat :=
  match collectIdx search text with
  | [] => (text, 0, 0)
  | first :: later =>
    let res := later.foldl
      (fun (acc : DistAcc) (idx : Nat) =>
        let adjusted := ((idx : Int) + acc.offset).toNat
        if (2500 : Int) ≤ (idx : Int) - (acc.lastFull : Int) then
          ⟨splice acc.text adjusted search.length longR,
           acc.offset + ((longR.length : Int) - (search.length : Int)),
           idx, acc.numFull + 1, acc.numShort⟩
        else
          ⟨splice acc.text adjusted search.length shortR,
           acc.offset + ((shortR.length : Int) - (search.length : Int)),
           acc.lastFull, acc.numFull, acc.numShort + 1⟩)
      ⟨splice text first search.length longR,
       (longR.length : Int) - (search.length : Int), first, 1, 0⟩
    (res.text, res.numFull, res.numShort)

/-! ### Helper lemmas -/

theorem mem_of_mem_replaceAux {x : Char} {s r : List Char} :
    ∀ {t : List Char} {skip : Nat}, x ∈ replaceAux s r skip t → x ∈ r ∨ x ∈ t := by
  intro t
  induction t with
  | nil => intro skip h; simp [replaceAux] at h
  | cons c rest ih =>
    intro skip h
    match skip with
    | k + 1 =>
      simp only [replaceAux] at h
      rcases ih h with h' | h'
      · exact Or.inl h'
      · exact Or.inr (List.mem_cons_of_mem _ h')
    | 0 =>
      simp only [replaceAux] at h
      split at h
      · rcases List.mem_append.mp h with h' | h'
        · exact Or.inl h'
        · rcases ih h' with h'' | h''
          · exact Or.inl h''
          · exact Or.inr (List.mem_cons_of_mem _ h'')
      · rcases List.mem_cons.mp h with h' | h'
        · exact Or.inr (h' ▸ List.mem_cons_self _ _)
        · rcases ih h' with h'' | h''
          · exact Or.inl h''
          · exact Or.inr (List.mem_cons_of_mem _ h'')

theorem mem_of_mem_escapeBackslash {x : Char} {l : List Char}
    (h : x ∈ escapeBackslash l) : x = '\\' ∨ x ∈ l := by
  unfold escapeBackslash pyReplace at h
  rw [if_neg (by decide)] at h
  rcases mem_of_mem_replaceAux (t := l) h with h' | h'
  · simp at h'
    exact Or.inl h'
  · exact Or.inr h'

theorem count_escapeBackslash_brokenPipe {l : List Char} (h : '¦' ∉ l) :
    (escapeBackslash l).count '¦' = 0 := by
  rw [List.count_eq_zero]
  intro hmem
  rcases mem_of_mem_escapeBackslash hmem with h' | h'
  · exact absurd h' (by decide)
  · exact h h'

theorem toList_mk (l : List Char) : (String.mk l).toList = l := rfl

theorem except_map_ok {α β γ : Type} {f : α → β} {x : Except γ α} {b : β}
    (h : x.map f = .ok b) : ∃ a, x = .ok a ∧ b = f a := by
  cases x with
  | error e => simp [Except.map] at h
  | ok a =>
    simp [Except.map] at h
    exact ⟨a, rfl, h.symm⟩

theorem length_rstripCR_lt {l : String} (h : l.toList.getLast? = some '\r') :
    (rstripCR l).toList.length < l.toList.length := by
  have h1 : l.toList.reverse.head? = some '\r' := by
    rw [List.head?_reverse]
    exact h
  rcases hc : l.toList.reverse with _ | ⟨a, as⟩
  · rw [hc] at h1; cases h1
  · have ha : a = '\r' := by rw [hc] at h1; simpa using h1
    have hlen : l.toList.length = as.length + 1 := by
      have h2 := congrArg List.length hc
      simpa using h2
    unfold rstripCR
    rw [toList_mk, hc, List.dropWhile_cons, if_pos (by simp [ha])]
    have h3 : (List.dropWhile (fun x => x = '\r') as).length ≤ as.length :=
      (List.dropWhile_suffix _).length_le
    simp only [List.length_reverse]
    omega

theorem rstripCR_ne_of_trailing_cr {l : String}
    (h : l.toList.getLast? = some '\r') : rstripCR l ≠ l := by
  intro heq
  have hlt := length_rstripCR_lt h
  rw [heq] at hlt
  omega

/-- Inversion for a successful `lineStep`: either the line is blank (with the
verse auto-increment applied), or the state advances by `updCV`/`lastMarker`
and the emitted line is the stripped line (pass-through) or a successful
transform of it. -/
theorem lineStep_ok_inv {BBB : String} {c : EditCommand} {st : ScanState}
    {line : String} {st2 : ScanState} {out : String}
    (h : lineStep BBB c st line = .ok (st2, out)) :
    ∃ V1, autoV st = some V1 ∧
      ((rstripCR line = "" ∧ st2 = ⟨st.C, V1, st.lastMarker⟩ ∧ out = rstripCR line) ∨
       (rstripCR line ≠ "" ∧
         st2 = ⟨(updCV st V1 (splitUSFMMarkerFromText (rstripCR line)).1
                  (splitUSFMMarkerFromText (rstripCR line)).2).1,
                (updCV st V1 (splitUSFMMarkerFromText (rstripCR line)).1
                  (splitUSFMMarkerFromText (rstripCR line)).2).2,
                (splitUSFMMarkerFromText (rstripCR line)).1⟩ ∧
         (out = rstripCR line ∨
           ∃ w t, applyEditFunction c w (rstripCR line) = .ok t ∧ out = t))) := by
  unfold lineStep at h
  rcases hAuto : autoV st with _ | V1 <;> rw [hAuto] at h
  · cases h
  · refine ⟨V1, rfl, ?_⟩
    dsimp only at h
    by_cases hb : rstripCR line = ""
    · rw [if_pos hb] at h
      cases h
      exact Or.inl ⟨hb, rfl, rfl⟩
    · rw [if_neg hb] at h
      refine Or.inr ⟨hb, ?_⟩
      unfold refsAndProcess at h
      dsimp only at h
      repeat' split at h
      all_goals try exact Except.noConfusion h
      all_goals try (cases h; exact ⟨rfl, Or.inl rfl⟩)
      all_goals
        obtain ⟨t, happ, hout⟩ := except_map_ok h
        injection hout with h1 h2
        exact ⟨h1, Or.inr ⟨_, t, happ, h2⟩⟩

/-! ### Concrete commands used by the counterexample and witness theorems -/

/-- Two-word word-link search/replace pair (word-link correlation claims). -/
def twoWordCmd : EditCommand :=
  ⟨"", [], [], [], [], [], [], "", "", "2x¦ 5y¦", "", "", "r¦ s¦", "pair", ""⟩

/-- Two-word word-link phrase whose matched ids appear in descending order. -/
def phraseCmd : EditCommand :=
  ⟨"", [], [], [], [], [], [], "", "", "he¦ said¦", "", "", "she¦ told¦", "phrase", ""⟩

/-- Word-link search with a replacement template lacking a word-link marker. -/
def noPipeReplCmd : EditCommand :=
  ⟨"", [], [], [], [], [], [], "", "", "a¦", "", "", "b", "nopipe", ""⟩

/-- Loop-tag command replacing `a` with `aa` (the pathological loop case). -/
def loopAACmd : EditCommand :=
  ⟨"l", [], [], [], [], [], [], "", "", "a", "", "", "aa", "loop", ""⟩

/-- Structured-mode command excluding marker `p` (replaces `x` with `y`). -/
def excludePCmd : EditCommand :=
  ⟨"", [], [], [], ["p"], [], [], "", "", "x", "", "", "y", "excl", ""⟩

/-- Structured-mode command with only a reference exclusion (never matching). -/
def refOnlyCmd : EditCommand :=
  ⟨"", [], [], [], [], [], ["9:9"], "", "", "zzz", "", "", "q", "ref", ""⟩

/-- Structured-mode command whose include-marker list is `q` only. -/
def includeQCmd : EditCommand :=
  ⟨"", [], [], ["q"], [], [], [], "", "", "x", "", "", "y", "incl", ""⟩

/-! ### Claim theorems -/

/-- C1: the claim states that when a multi-word word-link match carries
differing numeric ids, each matched word's own id is substituted into the
correspondingly-positioned replacement word, never swapped.  The code instead
zips the replacement words with the SORTED set of ids
(`orderedWordLinkNumberStringsSet`, line 723) rather than with the ids in
order of appearance: on the match `2x¦5 5y¦2` (ids 5 then 2) the output gives
the first word id 2 and the second word id 5 - swapped - and on the match
`he¦7 said¦5` (ids 7 then 5) the code crashes on its own
`assert wordNumber in foundWord`.  This contradicts the code's stated intent
("Individually do the word number replacements for each word", line 713) and
the module docstring ("Now handles multiple words in search/replace"), so the
code, not the claim, is wrong. -/
theorem c1_wordlink_correlation_code_bug :
    (executeRegexEditChunkCommand "GEN" "2x¦5 5y¦2" twoWordCmd = .ok "r¦2 s¦5" ∧
      ("r¦2 s¦5" : String) ≠ "r¦5 s¦2") ∧
    executeRegexEditChunkCommand "GEN" "then he¦7 said¦5 x" phraseCmd =
      .error "assert failed: wordNumber in foundWord" := by
  refine ⟨⟨by decide, by decide⟩, by decide⟩

/-- Any sufficient fuel (strictly above the running count, which the loop
preserves) gives the same result: the fuelled loop is a faithful rendering of
Python's `while`, which terminates because the count strictly decreases on
every continuing pass. -/
theorem loopReplaceF_fuel_irrelevant (s r : List Char) :
    ∀ (lastCount f1 f2 : Nat) (t : List Char), lastCount < f1 → lastCount < f2 →
      loopReplaceF s r f1 lastCount t = loopReplaceF s r f2 lastCount t := by
  intro lastCount
  induction lastCount using Nat.strong_induction_on with
  | _ lastCount ih =>
    intro f1 f2 t h1 h2
    rcases f1 with _ | g1
    · omega
    rcases f2 with _ | g2
    · omega
    simp only [loopReplaceF]
    split
    · split
      · rfl
      · have hlt : pyCount s (pyReplace s r t) < lastCount := by omega
        exact ih _ hlt g1 g2 _ (by omega) (by omega)
    · rfl

/-- C3: under the loop tag, after the base global replace the loop repeats
the global replace while the search text still occurs, and any pass that
fails to strictly decrease the occurrence count aborts (critical log,
reported as the `true` flag) and returns the text as transformed so far -
instead of looping forever: the loop's result does not depend on the fuel
bound once it exceeds the running occurrence count (second conjunct), so the
Python loop it renders terminates.  The concrete conjunct runs the claim's
own example (search `a`, replace `aa`): the base pass gives `aa` (count 2),
the first loop pass gives `aaaa` (count 4, not decreasing), so the loop
aborts and returns `aaaa`. -/
theorem c3_loop_guard_terminates :
    (∀ (s r : List Char) (fuel lastCount : Nat) (t : List Char),
      containsSub s t = true →
      lastCount ≤ pyCount s (pyReplace s r t) →
      loopReplaceF s r (fuel + 1) lastCount t = (pyReplace s r t, true)) ∧
    (∀ (s r : List Char) (lastCount f1 f2 : Nat) (t : List Char),
      lastCount < f1 → lastCount < f2 →
      loopReplaceF s r f1 lastCount t = loopReplaceF s r f2 lastCount t) ∧
    executeEditChunkCommand "GEN" "a" loopAACmd = .ok ("aaaa", true) := by
  refine ⟨?_, ?_, by decide⟩
  · intro s r fuel lastCount t hin hfail
    simp only [loopReplaceF, hin, if_true]
    rw [if_pos hfail]
  · intro s r lastCount f1 f2 t h1 h2
    exact loopReplaceF_fuel_irrelevant s r lastCount f1 f2 t h1 h2

/-- C3 witness: the general loop-guard conjunct applied to the state reached
by the claim's example (`lastCount = 2`, text `aa`). -/
theorem c3_loop_guard_terminates_witness :
    containsSub "a".toList "aa".toList = true ∧
    2 ≤ pyCount "a".toList (pyReplace "a".toList "aa".toList "aa".toList) ∧
    loopReplaceF "a".toList "aa".toList 5 2 "aa".toList =
      (pyReplace "a".toList "aa".toList "aa".toList, true) := by
  refine ⟨by decide, by decide, ?_⟩
  exact c3_loop_guard_terminates.1 "a".toList "aa".toList 4 2 "aa".toList
    (by decide) (by decide)

/-- C8: the dispatcher selects the regex replacer exactly when the `w` tag is
present, `preText` or `postText` is non-empty, or the search text contains a
word-link marker; otherwise the plain replacer - and the same selected
function (`applyEditFunction`) is invoked in the unstructured whole-text call
and in the structured per-line transform. -/
theorem c8_replacer_selection (c : EditCommand) (BBB whereStr text : String) :
    (regexSelected c = true ↔
      ('w' ∈ c.tags.toList ∨ c.preText ≠ "" ∨ c.postText ≠ "" ∨
        '¦' ∈ c.searchText.toList)) ∧
    (applyEditFunction c whereStr text =
      if regexSelected c then executeRegexEditChunkCommand whereStr text c
      else (executeEditChunkCommand whereStr text c).map Prod.fst) ∧
    (BBB ∉ c.eBooks → c.iMarkers = [] → c.eMarkers = [] → c.iRefs = [] →
      c.eRefs = [] → applyCommand BBB text c = applyEditFunction c BBB text) ∧
    (∀ (st2 : ScanState) (marker : Option String) (line : String),
      (st2.C ++ ":" ++ st2.V) ∉ c.eRefs →
      (BBB ++ "_" ++ st2.C ++ ":" ++ st2.V) ∉ c.eRefs →
      ¬(c.iRefs ≠ [] ∧ (st2.C ++ ":" ++ st2.V) ∉ c.iRefs ∧
        (BBB ++ "_" ++ st2.C ++ ":" ++ st2.V) ∉ c.iRefs) →
      refsAndProcess BBB c st2 marker line =
        (applyEditFunction c
          ((BBB ++ "_" ++ st2.C ++ ":" ++ st2.V) ++ "~" ++ whereMarker marker)
          line).map fun t => (st2, t)) := by
  refine ⟨?_, rfl, ?_, ?_⟩
  · unfold regexSelected
    simp only [Bool.or_eq_true, List.contains, List.elem_iff, Bool.not_eq_true',
      beq_eq_false_iff_ne, ne_eq]
    tauto
  · intro he h1 h2 h3 h4
    unfold applyCommand
    rw [if_neg (by tauto), if_neg he, if_pos ⟨h1, h2, h3, h4⟩]
  · intro st2 marker line hcv hbcv hi
    unfold refsAndProcess
    rw [if_neg hcv, if_neg hbcv, if_neg hi]

/-- C8 witness: the selection rule and the unstructured-mode equation at a
concrete command (loop tag only, no context, no word-link marker: the plain
replacer is chosen and the whole text is processed in one call). -/
theorem c8_replacer_selection_witness :
    (regexSelected loopAACmd = true ↔
      ('w' ∈ loopAACmd.tags.toList ∨ loopAACmd.preText ≠ "" ∨
        loopAACmd.postText ≠ "" ∨ '¦' ∈ loopAACmd.searchText.toList)) ∧
    applyCommand "GEN" "a" loopAACmd = applyEditFunction loopAACmd "GEN" "a" := by
  exact ⟨(c8_replacer_selection loopAACmd "GEN" "GEN" "a").1,
    (c8_replacer_selection loopAACmd "GEN" "GEN" "a").2.2.1 (by decide)
      rfl rfl rfl rfl⟩

/-- C9 counterexample: the claim states that an unsupported word-link
replacement shape (match carries an id, template has no word-link marker) is
reported and the affected command or line is skipped or passed through so the
run makes forward progress.  In the code this branch is the undefined name
`not_written_for_removing_word_number_yet` (line 737), an unhandled
`NameError` that aborts the whole run: on `x a¦5 y` the replacer returns an
error, not the unchanged text. -/
theorem c9_unsupported_shape_counterexample :
    executeRegexEditChunkCommand "GEN" "x a¦5 y" noPipeReplCmd =
      .error "NameError: not_written_for_removing_word_number_yet" ∧
    executeRegexEditChunkCommand "GEN" "x a¦5 y" noPipeReplCmd ≠
      .ok "x a¦5 y" := by
  exact ⟨by decide, by decide⟩

/-- C9 amended: for a word-link command (no context fragments, no `w` tag,
metacharacter-free search text) whose replacement template lacks a word-link
marker, any match makes the replacer raise the unhandled placeholder error
(`not_written_for_removing_word_number_yet`), aborting the run loudly instead
of skipping the line or command. -/
theorem c9_unsupported_shape_amended (c : EditCommand) (whereStr text : String)
    (hpre : c.preText = "") (hpost : c.postText = "")
    (hw : 'w' ∉ c.tags.toList) (hlit : literalSearchText c.searchText = true)
    (hs : '¦' ∈ c.searchText.toList) (hr : '¦' ∉ c.replaceText.toList)
    (ms ml : Nat)
    (hmatch : searchFrom c.searchText.toList text.toList 0 = some (ms, ml)) :
    executeRegexEditChunkCommand whereStr text c =
      .error "NameError: not_written_for_removing_word_number_yet" := by
  unfold executeRegexEditChunkCommand
  rw [if_neg (not_not_intro ⟨hpre, hpost, hw, hlit⟩)]
  rw [if_pos (List.count_pos_iff.mpr hs)]
  simp only [wordLinkLoop]
  rw [hmatch]
  simp only [wordLinkReplacement]
  rw [if_pos (count_escapeBackslash_brokenPipe hr)]
  rfl

/-- C9 amended witness: the amended theorem at the concrete command and text
of the counterexample. -/
theorem c9_unsupported_shape_amended_witness :
    searchFrom noPipeReplCmd.searchText.toList "x a¦5 y".toList 0 = some (2, 3) ∧
    executeRegexEditChunkCommand "GEN" "x a¦5 y" noPipeReplCmd =
      .error "NameError: not_written_for_removing_word_number_yet" := by
  exact ⟨by decide,
    c9_unsupported_shape_amended noPipeReplCmd "GEN" "x a¦5 y" rfl rfl
      (by decide) (by decide) (by decide) (by decide) 2 3 (by decide)⟩

/-- C5 counterexample: the claim says marker `v` sets the verse to the first
whitespace-delimited token of its text, but the code splits on the space
character only (`text.split(' ')[0]`, line 452): on the line
`\v 3<TAB>12 x` (text `3<TAB>12 x`) the code stores verse `3<TAB>12`, while
the first whitespace-delimited token is `3`. -/
theorem c5_verse_token_counterexample :
    (lineStep "GEN" refOnlyCmd ⟨"1", "0", some "p"⟩ "\\v 3\t12 x").map
        (fun r => r.1.V) = .ok "3\t12" ∧
    firstWhitespaceToken "3\t12 x" = "3" ∧ ("3\t12" : String) ≠ "3" := by
  refine ⟨by decide, by decide, by decide⟩

/-- C5 amended: the structured scan starts at chapter `"-1"`, verse `"-1"`;
while the chapter is `"-1"` the verse is incremented (as a Python integer)
before processing every line, blank or not; marker `c` sets the chapter to
its text and the verse to `"0"`; marker `v` sets the verse to the first
SPACE-delimited token of its text (split on the space character only, not on
arbitrary whitespace); any other line leaves chapter and verse at their
(possibly auto-incremented) values. -/
theorem c5_ref_state_amended :
    (∀ (BBB text : String) (c : EditCommand), BBB ∉ c.eBooks →
      ¬(c.iMarkers = [] ∧ c.eMarkers = [] ∧ c.iRefs = [] ∧ c.eRefs = []) →
      applyCommand BBB text c =
        (scanLines BBB c ⟨"-1", "-1", none⟩
            ((splitOnChar '\n' text.toList).map String.mk)).map
          (fun ls => String.mk (joinWithChar '\n' (ls.map String.toList)))) ∧
    (∀ (st : ScanState) (n : Int), st.C = "-1" → pyInt st.V = some n →
      autoV st = some (toString (n + 1))) ∧
    (∀ st : ScanState, st.C ≠ "-1" → autoV st = some st.V) ∧
    (∀ (BBB : String) (c : EditCommand) (st : ScanState) (line : String)
        (st2 : ScanState) (out : String),
      lineStep BBB c st line = .ok (st2, out) → rstripCR line ≠ "" →
      ((splitUSFMMarkerFromText (rstripCR line)).1 = some "c" →
        st2.C = (splitUSFMMarkerFromText (rstripCR line)).2 ∧ st2.V = "0") ∧
      ((splitUSFMMarkerFromText (rstripCR line)).1 = some "v" →
        st2.C = st.C ∧
        st2.V = firstSpaceToken (splitUSFMMarkerFromText (rstripCR line)).2) ∧
      (∀ V1, autoV st = some V1 →
        (splitUSFMMarkerFromText (rstripCR line)).1 ≠ some "c" →
        (splitUSFMMarkerFromText (rstripCR line)).1 ≠ some "v" →
        st2.C = st.C ∧ st2.V = V1)) := by
  refine ⟨?_, ?_, ?_, ?_⟩
  · intro BBB text c he hne
    unfold applyCommand
    rw [if_neg (by tauto), if_neg he, if_neg hne]
  · intro st n hC hV
    unfold autoV
    rw [if_pos hC, hV]
    rfl
  · intro st hC
    unfold autoV
    rw [if_neg hC]
  · intro BBB c st line st2 out h hnb
    rcases lineStep_ok_inv h with ⟨V1, hAuto, hcase⟩
    rcases hcase with ⟨hb, _, _⟩ | ⟨_, hst, _⟩
    · exact absurd hb hnb
    · refine ⟨?_, ?_, ?_⟩
      · intro hm
        rw [hst]
        unfold updCV
        simp [hm]
      · intro hm
        rw [hst]
        unfold updCV
        simp [hm]
      · intro V1' hAuto' hm1 hm2
        rw [hAuto] at hAuto'
        injection hAuto' with hV1
        rw [hst]
        unfold updCV
        simp [hm1, hm2, hV1]

/-- C5 amended witness: the first `\c 1` line from the initial state: the
pre-chapter auto-increment parses `"-1"` and the `c` transition yields
chapter `"1"`, verse `"0"`. -/
theorem c5_ref_state_amended_witness :
    autoV ⟨"-1", "-1", none⟩ = some "0" ∧
    lineStep "GEN" refOnlyCmd ⟨"-1", "-1", none⟩ "\\c 1" =
      .ok (⟨"1", "0", some "c"⟩, "\\c 1") ∧
    (⟨"1", "0", some "c"⟩ : ScanState).C = "1" ∧
    (⟨"1", "0", some "c"⟩ : ScanState).V = "0" := by
  have h : lineStep "GEN" refOnlyCmd ⟨"-1", "-1", none⟩ "\\c 1" =
      .ok (⟨"1", "0", some "c"⟩, "\\c 1") := by decide
  have h2 := (c5_ref_state_amended.2.2.2 "GEN" refOnlyCmd ⟨"-1", "-1", none⟩
    "\\c 1" ⟨"1", "0", some "c"⟩ "\\c 1" h (by decide)).1 (by decide)
  exact ⟨c5_ref_state_amended.2.1 ⟨"-1", "-1", none⟩ (-1) rfl (by decide),
    h, h2.1.trans (by decide), h2.2⟩

/-- C6 counterexample: the claim says `lastMarker` always holds the most
recent explicit marker and is not modified by markerless continuation lines;
but line 454 assigns `lastMarker = marker` unconditionally, so a markerless
non-blank line resets it to `None`: after processing `cont x` from a state
whose last explicit marker is `p`, `lastMarker` is `none`, and consequently
on the document `\p a x / cont x / cont2 x` with marker `p` excluded, the
third line is transformed (its effective marker is `None`, so the marker
filter is skipped) instead of passing through as the claim implies. -/
theorem c6_lastMarker_counterexample :
    (lineStep "GEN" excludePCmd ⟨"-1", "0", some "p"⟩ "cont x").map
        (fun r => r.1.lastMarker) = .ok none ∧
    (none : Option String) ≠ some "p" ∧
    applyCommand "GEN" "\\p a x\ncont x\ncont2 x" excludePCmd =
      .ok "\\p a x\ncont x\ncont2 y" := by
  refine ⟨by decide, by decide, by decide⟩

/-- C6 amended: after each processed non-blank line `lastMarker` holds that
line's own marker - `none` for a markerless continuation line - while blank
lines leave it unchanged.  Hence the first markerless line after an explicit
marker still sees that marker as its effective marker, but the state it
leaves behind has `lastMarker = none`, so a second consecutive markerless
line's effective marker is `None`. -/
theorem c6_lastMarker_amended (BBB : String) (c : EditCommand) (st : ScanState)
    (line : String) (st2 : ScanState) (out : String)
    (h : lineStep BBB c st line = .ok (st2, out)) :
    (rstripCR line = "" → st2.lastMarker = st.lastMarker) ∧
    (rstripCR line ≠ "" →
      st2.lastMarker = (splitUSFMMarkerFromText (rstripCR line)).1) ∧
    (rstripCR line ≠ "" → (splitUSFMMarkerFromText (rstripCR line)).1 = none →
      effMarkerOf st.lastMarker (splitUSFMMarkerFromText (rstripCR line)).1 =
          st.lastMarker ∧ st2.lastMarker = none) := by
  rcases lineStep_ok_inv h with ⟨V1, hAuto, hcase⟩
  rcases hcase with ⟨hb, hst, _⟩ | ⟨hb, hst, _⟩
  · refine ⟨fun _ => by rw [hst], fun hnb => absurd hb hnb, fun hnb => absurd hb hnb⟩
  · refine ⟨fun hbl => absurd hbl hb, fun _ => by rw [hst], fun _ hnone => ?_⟩
    constructor
    · rw [hnone]
      rfl
    · rw [hst]
      exact hnone

/-- C6 amended witness: the amended theorem at the markerless line `cont x`
following marker `p`: the new `lastMarker` is the line's own (absent) marker. -/
theorem c6_lastMarker_amended_witness :
    lineStep "GEN" excludePCmd ⟨"-1", "0", some "p"⟩ "cont x" =
      .ok (⟨"-1", "1", none⟩, "cont x") ∧
    (⟨"-1", "1", none⟩ : ScanState).lastMarker =
      (splitUSFMMarkerFromText (rstripCR "cont x")).1 := by
  have h : lineStep "GEN" excludePCmd ⟨"-1", "0", some "p"⟩ "cont x" =
      .ok (⟨"-1", "1", none⟩, "cont x") := by decide
  exact ⟨h, (c6_lastMarker_amended "GEN" excludePCmd ⟨"-1", "0", some "p"⟩
    "cont x" ⟨"-1", "1", none⟩ "cont x" h).2.1 (by decide)⟩

/-- Case analysis of the reference checks (lines 466-483): the outcome of
`refsAndProcess` follows the ordered decision written from the (amended)
claim's reference clauses. -/
theorem refsAndProcess_cases (BBB : String) (c : EditCommand) (st2 : ScanState)
    (marker : Option String) (line : String) :
    match (if (st2.C ++ ":" ++ st2.V) ∈ c.eRefs then FilterOutcome.trap
      else if (BBB ++ "_" ++ st2.C ++ ":" ++ st2.V) ∈ c.eRefs then
        (if (BBB ++ "_" ++ st2.C ++ ":" ++ st2.V) ∈ c.iRefs then FilterOutcome.trap
         else FilterOutcome.passThrough)
      else if c.iRefs ≠ [] ∧ (st2.C ++ ":" ++ st2.V) ∉ c.iRefs ∧
          (BBB ++ "_" ++ st2.C ++ ":" ++ st2.V) ∉ c.iRefs then FilterOutcome.passThrough
      else FilterOutcome.transform) with
    | FilterOutcome.passThrough => refsAndProcess BBB c st2 marker line = .ok (st2, line)
    | FilterOutcome.trap => ∃ msg, refsAndProcess BBB c st2 marker line = .error msg
    | FilterOutcome.transform =>
        refsAndProcess BBB c st2 marker line =
          (applyEditFunction c
            ((BBB ++ "_" ++ st2.C ++ ":" ++ st2.V) ++ "~" ++ whereMarker marker)
            line).map fun t => (st2, t) := by
  unfold refsAndProcess
  dsimp only
  split_ifs
  all_goals first | exact ⟨_, rfl⟩ | rfl

/-- C7 counterexample: the claim says the first filter check that fires makes
the line pass through into the output unchanged and processing continues.
But the not-included-marker branch ends in the undefined name `halt`
(line 464), an unhandled `NameError`: with include-markers `[q]` the document
`\p x` aborts the whole command instead of passing the line through. -/
theorem c7_filter_order_counterexample :
    applyCommand "GEN" "\\p x" includeQCmd =
      .error "NameError: halt (not-included marker debug trap)" ∧
    applyCommand "GEN" "\\p x" includeQCmd ≠ .ok "\\p x" := by
  refine ⟨by decide, by decide⟩

/-- C7 amended: a command with empty marker and reference filter sets
processes the whole text in one unstructured call; otherwise, per non-blank
line, the checks fire in the order
excludeMarkers / includeMarkers / `CVRef ∈ excludeRefs` /
`BCVRef ∈ excludeRefs` / includeRefs, with two amendments forced by the code:
the two marker checks are only evaluated when the effective marker is truthy
(non-`None`, non-empty), and the include-markers check and the
`CVRef ∈ excludeRefs` check abort the run with an unhandled `NameError`
(debug trap `halt`) instead of passing the line through, as does an
include/exclude overlap caught by an assert; the remaining firing checks pass
the line through unchanged and only a line passing all checks is handed to
the selected replacer. -/
theorem c7_filter_order_amended (BBB : String) (c : EditCommand) (st : ScanState)
    (line : String) (V1 : String) (hAuto : autoV st = some V1)
    (hnb : rstripCR line ≠ "") :
    (∀ text : String, BBB ∉ c.eBooks → c.iMarkers = [] → c.eMarkers = [] →
      c.iRefs = [] → c.eRefs = [] →
      applyCommand BBB text c = applyEditFunction c BBB text) ∧
    (let mt := splitUSFMMarkerFromText (rstripCR line)
     let cv := updCV st V1 mt.1 mt.2
     let effM := effMarkerOf st.lastMarker mt.1
     let st2 : ScanState := ⟨cv.1, cv.2, mt.1⟩
     let CVRef := st2.C ++ ":" ++ st2.V
     let BCVRef := BBB ++ "_" ++ st2.C ++ ":" ++ st2.V
     match lineFilterOutcome c effM CVRef BCVRef with
     | FilterOutcome.passThrough => lineStep BBB c st line = .ok (st2, rstripCR line)
     | FilterOutcome.trap => ∃ msg, lineStep BBB c st line = .error msg
     | FilterOutcome.transform =>
         lineStep BBB c st line =
           (applyEditFunction c (BCVRef ++ "~" ++ whereMarker mt.1)
             (rstripCR line)).map fun t => (st2, t)) := by
  constructor
  · intro text he h1 h2 h3 h4
    unfold applyCommand
    rw [if_neg (by tauto), if_neg he, if_pos ⟨h1, h2, h3, h4⟩]
  dsimp only
  set L := rstripCR line with hL
  set mt := splitUSFMMarkerFromText L with hmt
  set cv := updCV st V1 mt.1 mt.2 with hcv
  set effM := effMarkerOf st.lastMarker mt.1 with heM
  have hbase : ∀ r : Except String (ScanState × String),
      (if markerTruthy effM then
        if effM.getD "" ∈ c.eMarkers then
          if effM.getD "" ∈ c.iMarkers then
            Except.error "assert failed: marker in both eMarkers and iMarkers"
          else Except.ok (⟨cv.1, cv.2, mt.1⟩, L)
        else if c.iMarkers ≠ [] ∧ effM.getD "" ∉ c.iMarkers then
          Except.error "NameError: halt (not-included marker debug trap)"
        else refsAndProcess BBB c ⟨cv.1, cv.2, mt.1⟩ mt.1 L
      else refsAndProcess BBB c ⟨cv.1, cv.2, mt.1⟩ mt.1 L) = r →
      lineStep BBB c st line = r := by
    intro r hr
    rw [← hr]
    unfold lineStep
    rw [hAuto]
    dsimp only
    rw [if_neg hnb]
  by_cases hT : markerTruthy effM = true
  · by_cases hE : effM.getD "" ∈ c.eMarkers
    · by_cases hI : effM.getD "" ∈ c.iMarkers
      · have hdec : lineFilterOutcome c effM (cv.1 ++ ":" ++ cv.2)
            (BBB ++ "_" ++ cv.1 ++ ":" ++ cv.2) = FilterOutcome.trap := by
          unfold lineFilterOutcome
          rw [if_pos ⟨hT, hE⟩, if_pos hI]
        rw [hdec]
        exact ⟨_, hbase _ (by rw [if_pos hT, if_pos hE, if_pos hI])⟩
      · have hdec : lineFilterOutcome c effM (cv.1 ++ ":" ++ cv.2)
            (BBB ++ "_" ++ cv.1 ++ ":" ++ cv.2) = FilterOutcome.passThrough := by
          unfold lineFilterOutcome
          rw [if_pos ⟨hT, hE⟩, if_neg hI]
        rw [hdec]
        exact hbase _ (by rw [if_pos hT, if_pos hE, if_neg hI])
    · by_cases hIM : c.iMarkers ≠ [] ∧ effM.getD "" ∉ c.iMarkers
      · have hdec : lineFilterOutcome c effM (cv.1 ++ ":" ++ cv.2)
            (BBB ++ "_" ++ cv.1 ++ ":" ++ cv.2) = FilterOutcome.trap := by
          unfold lineFilterOutcome
          rw [if_neg (fun h => hE h.2), if_pos ⟨hT, hIM⟩]
        rw [hdec]
        exact ⟨_, hbase _ (by rw [if_pos hT, if_neg hE, if_pos hIM])⟩
      · have hstep : lineStep BBB c st line =
            refsAndProcess BBB c ⟨cv.1, cv.2, mt.1⟩ mt.1 L :=
          hbase _ (by rw [if_pos hT, if_neg hE, if_neg hIM])
        have hdec : lineFilterOutcome c effM (cv.1 ++ ":" ++ cv.2)
            (BBB ++ "_" ++ cv.1 ++ ":" ++ cv.2) =
            (if ((⟨cv.1, cv.2, mt.1⟩ : ScanState).C ++ ":" ++
                (⟨cv.1, cv.2, mt.1⟩ : ScanState).V) ∈ c.eRefs then FilterOutcome.trap
             else if (BBB ++ "_" ++ (⟨cv.1, cv.2, mt.1⟩ : ScanState).C ++ ":" ++
                (⟨cv.1, cv.2, mt.1⟩ : ScanState).V) ∈ c.eRefs then
               (if (BBB ++ "_" ++ (⟨cv.1, cv.2, mt.1⟩ : ScanState).C ++ ":" ++
                  (⟨cv.1, cv.2, mt.1⟩ : ScanState).V) ∈ c.iRefs then FilterOutcome.trap
                else FilterOutcome.passThrough)
             else if c.iRefs ≠ [] ∧ ((⟨cv.1, cv.2, mt.1⟩ : ScanState).C ++ ":" ++
                  (⟨cv.1, cv.2, mt.1⟩ : ScanState).V) ∉ c.iRefs ∧
                 (BBB ++ "_" ++ (⟨cv.1, cv.2, mt.1⟩ : ScanState).C ++ ":" ++
                  (⟨cv.1, cv.2, mt.1⟩ : ScanState).V) ∉ c.iRefs then
               FilterOutcome.passThrough
             else FilterOutcome.transform) := by
          unfold lineFilterOutcome
          rw [if_neg (fun h => hE h.2), if_neg (fun h => hIM h.2)]
        rw [hdec, hstep]
        exact refsAndProcess_cases BBB c ⟨cv.1, cv.2, mt.1⟩ mt.1 L
  · have hstep : lineStep BBB c st line =
        refsAndProcess BBB c ⟨cv.1, cv.2, mt.1⟩ mt.1 L :=
      hbase _ (by rw [if_neg hT])
    have hdec : lineFilterOutcome c effM (cv.1 ++ ":" ++ cv.2)
        (BBB ++ "_" ++ cv.1 ++ ":" ++ cv.2) =
        (if ((⟨cv.1, cv.2, mt.1⟩ : ScanState).C ++ ":" ++
            (⟨cv.1, cv.2, mt.1⟩ : ScanState).V) ∈ c.eRefs then FilterOutcome.trap
         else if (BBB ++ "_" ++ (⟨cv.1, cv.2, mt.1⟩ : ScanState).C ++ ":" ++
            (⟨cv.1, cv.2, mt.1⟩ : ScanState).V) ∈ c.eRefs then
           (if (BBB ++ "_" ++ (⟨cv.1, cv.2, mt.1⟩ : ScanState).C ++ ":" ++
              (⟨cv.1, cv.2, mt.1⟩ : ScanState).V) ∈ c.iRefs then FilterOutcome.trap
            else FilterOutcome.passThrough)
         else if c.iRefs ≠ [] ∧ ((⟨cv.1, cv.2, mt.1⟩ : ScanState).C ++ ":" ++
              (⟨cv.1, cv.2, mt.1⟩ : ScanState).V) ∉ c.iRefs ∧
             (BBB ++ "_" ++ (⟨cv.1, cv.2, mt.1⟩ : ScanState).C ++ ":" ++
              (⟨cv.1, cv.2, mt.1⟩ : ScanState).V) ∉ c.iRefs then
           FilterOutcome.passThrough
         else FilterOutcome.transform) := by
      unfold lineFilterOutcome
      rw [if_neg (fun h => hT h.1), if_neg (fun h => hT h.1)]
    rw [hdec, hstep]
    exact refsAndProcess_cases BBB c ⟨cv.1, cv.2, mt.1⟩ mt.1 L

/-- C7 amended witness: a `\v` line passing every check is handed to the
selected replacer with the `BCVRef~marker` location tag. -/
theorem c7_filter_order_amended_witness :
    autoV ⟨"1", "0", some "p"⟩ = some "0" ∧ rstripCR "\\v 1 hi" ≠ "" ∧
    lineStep "GEN" refOnlyCmd ⟨"1", "0", some "p"⟩ "\\v 1 hi" =
      (applyEditFunction refOnlyCmd "GEN_1:1~v" "\\v 1 hi").map
        (fun t => ((⟨"1", "1", some "v"⟩ : ScanState), t)) := by
  refine ⟨by decide, by decide, ?_⟩
  exact (c7_filter_order_amended "GEN" refOnlyCmd ⟨"1", "0", some "p"⟩
    "\\v 1 hi" "0" (by decide) (by decide)).2

/-- C10: every line emitted by the structured scan - blank, pass-through or
transformed - is derived from the input line with its trailing carriage
returns stripped first, and a pass-through line is emitted exactly as the
stripped line, with no other change; a line ending in `\r` is therefore not
byte-identical in the output. -/
theorem c10_cr_stripping (BBB : String) (c : EditCommand) (st : ScanState)
    (line : String) (st2 : ScanState) (out : String)
    (h : lineStep BBB c st line = .ok (st2, out)) :
    (out = rstripCR line ∨
      ∃ w t, applyEditFunction c w (rstripCR line) = .ok t ∧ out = t) ∧
    (∀ l : String, l.toList.getLast? = some '\r' → rstripCR l ≠ l) := by
  constructor
  · rcases lineStep_ok_inv h with ⟨V1, _, hcase⟩
    rcases hcase with ⟨_, _, hout⟩ | ⟨_, _, hout⟩
    · exact Or.inl hout
    · exact hout
  · intro l hl
    exact rstripCR_ne_of_trailing_cr hl

/-- C10 witness: a pass-through line ending in `\r` is emitted with exactly
the trailing carriage return removed. -/
theorem c10_cr_stripping_witness :
    lineStep "GEN" excludePCmd ⟨"1", "1", some "p"⟩ "keep me\r" =
      .ok (⟨"1", "1", none⟩, "keep me") ∧
    ("keep me" = rstripCR "keep me\r" ∨
      ∃ w t, applyEditFunction excludePCmd w (rstripCR "keep me\r") = .ok t ∧
        "keep me" = t) ∧
    rstripCR "keep me\r" ≠ "keep me\r" := by
  have h : lineStep "GEN" excludePCmd ⟨"1", "1", some "p"⟩ "keep me\r" =
      .ok (⟨"1", "1", none⟩, "keep me") := by decide
  have hc := c10_cr_stripping "GEN" excludePCmd ⟨"1", "1", some "p"⟩
    "keep me\r" ⟨"1", "1", none⟩ "keep me" h
  exact ⟨h, hc.1, hc.2 "keep me\r" (by decide)⟩

/-! ### C2: the distance-attenuation branch -/

theorem length_collectIdxAux (s : List Char) :
    ∀ (t : List Char) (skip pos : Nat),
      (collectIdxAux s skip pos t).length = countAux s skip t := by
  intro t
  induction t with
  | nil => intro skip pos; rfl
  | cons c rest ih =>
    intro skip pos
    match skip with
    | k + 1 =>
      simp only [collectIdxAux, countAux]
      exact ih k (pos + 1)
    | 0 =>
      simp only [collectIdxAux, countAux]
      split
      · rw [List.length_cons, ih]
        omega
      · exact ih 0 (pos + 1)

theorem distLoop_counts (search longR shortR : List Char) :
    ∀ (idxs : List Nat) (acc : DistAcc),
      (distLoop search longR shortR idxs acc).numFull +
        (distLoop search longR shortR idxs acc).numShort =
      acc.numFull + acc.numShort + idxs.length := by
  intro idxs
  induction idxs with
  | nil => intro acc; rfl
  | cons i rest ih =>
    intro acc
    simp only [distLoop]
    split
    · rw [ih]
      dsimp only
      simp only [List.length_cons]
      omega
    · rw [ih]
      dsimp only
      simp only [List.length_cons]
      omega

theorem distLoop_eq_foldl (search longR shortR : List Char) :
    ∀ (idxs : List Nat) (acc : DistAcc),
      distLoop search longR shortR idxs acc =
        idxs.foldl (fun (a : DistAcc) (idx : Nat) =>
          let adjusted := ((idx : Int) + a.offset).toNat
          if (2500 : Int) ≤ (idx : Int) - (a.lastFull : Int) then
            ⟨splice a.text adjusted search.length longR,
             a.offset + ((longR.length : Int) - (search.length : Int)),
             idx, a.numFull + 1, a.numShort⟩
          else
            ⟨splice a.text adjusted search.length shortR,
             a.offset + ((shortR.length : Int) - (search.length : Int)),
             a.lastFull, a.numFull, a.numShort + 1⟩) acc := by
  intro idxs
  induction idxs with
  | nil => intro acc; rfl
  | cons i rest ih =>
    intro acc
    simp only [distLoop, List.foldl_cons, STANDARD_DISTANCE, Nat.cast_ofNat]
    split
    · rw [ih]
    · rw [ih]

theorem pyReplace1_of_collectIdx (s r : List Char) (hs : s ≠ []) :
    ∀ (t : List Char) (pos i : Nat) (rest : List Nat),
      collectIdxAux s 0 pos t = i :: rest →
      pos ≤ i ∧
        pyReplace1 s r t = t.take (i - pos) ++ r ++ t.drop (i - pos + s.length) := by
  intro t
  induction t with
  | nil => intro pos i rest h; simp [collectIdxAux] at h
  | cons c cs ih =>
    intro pos i rest h
    simp only [collectIdxAux] at h
    by_cases hp : s.isPrefixOf (c :: cs) = true
    · rw [if_pos hp] at h
      injection h with h1 h2
      subst h1
      refine ⟨Nat.le_refl _, ?_⟩
      simp only [pyReplace1]
      rw [if_pos hp, Nat.sub_self]
      simp
    · rw [if_neg hp] at h
      obtain ⟨hle, heq⟩ := ih (pos + 1) i rest h
      refine ⟨Nat.le_of_succ_le hle, ?_⟩
      simp only [pyReplace1]
      rw [if_neg hp, heq]
      have hi : i - pos = (i - (pos + 1)) + 1 := by omega
      rw [hi]
      have hdrop : (i - (pos + 1)) + 1 + s.length = ((i - (pos + 1)) + s.length) + 1 := by
        omega
      rw [hdrop]
      simp [List.take_succ_cons, List.drop_succ_cons]

/-- C2: under the distance tag (with `l` absent, more than one occurrence and
a chunk longer than 2500 characters), the plain replacer computes exactly the
claim's algorithm (`distanceSpec`: full replacement at the first collected
original-text offset, then for each later occurrence - located by its
original offset adjusted by the cumulative length delta - the full form
exactly when the original-offset distance from the last full replacement is
at least 2500, else the short form), and the number of full plus short
replacements equals the original occurrence count. -/
theorem c2_distance_attenuation (whereStr inputText : String) (c : EditCommand)
    (hpre : c.preText = "") (hpost : c.postText = "") (hw : 'w' ∉ c.tags.toList)
    (hd : 'd' ∈ c.tags.toList) (hl : 'l' ∉ c.tags.toList)
    (hsl : c.searchText.toList ≠ [])
    (hcount : 1 < countOccs c.searchText.toList inputText.toList)
    (hlen : STANDARD_DISTANCE < inputText.toList.length)
    (hshort : '/' ∈ c.replaceText.toList ∨
      containsSub "\\add ".toList c.replaceText.toList = true) :
    executeEditChunkCommand whereStr inputText c =
      .ok (String.mk (distanceSpec c.searchText.toList c.replaceText.toList
        (shortFormOf c.replaceText.toList) inputText.toList).1, false) ∧
    (distanceSpec c.searchText.toList c.replaceText.toList
        (shortFormOf c.replaceText.toList) inputText.toList).2.1 +
      (distanceSpec c.searchText.toList c.replaceText.toList
        (shortFormOf c.replaceText.toList) inputText.toList).2.2 =
      countOccs c.searchText.toList inputText.toList := by
  have hpc : pyCount c.searchText.toList inputText.toList =
      countOccs c.searchText.toList inputText.toList := by
    unfold pyCount
    rw [if_neg hsl]
  rcases hidx : collectIdx c.searchText.toList inputText.toList with _ | ⟨i0, restIdxs⟩
  · exfalso
    have hlen0 := length_collectIdxAux c.searchText.toList inputText.toList 0 0
    rw [show collectIdxAux c.searchText.toList 0 0 inputText.toList =
        collectIdx c.searchText.toList inputText.toList from rfl, hidx] at hlen0
    simp only [List.length_nil] at hlen0
    unfold countOccs at hcount
    omega
  · obtain ⟨_, hrepl⟩ := pyReplace1_of_collectIdx c.searchText.toList
      c.replaceText.toList hsl inputText.toList 0 i0 restIdxs hidx
    simp only [Nat.sub_zero] at hrepl
    have hsplice : pyReplace1 c.searchText.toList c.replaceText.toList inputText.toList =
        splice inputText.toList i0 c.searchText.toList.length c.replaceText.toList := by
      rw [hrepl]
      rfl
    have hds : distanceSpec c.searchText.toList c.replaceText.toList
        (shortFormOf c.replaceText.toList) inputText.toList =
        ((distLoop c.searchText.toList c.replaceText.toList
            (shortFormOf c.replaceText.toList) restIdxs
            ⟨splice inputText.toList i0 c.searchText.toList.length c.replaceText.toList,
             (c.replaceText.toList.length : Int) - (c.searchText.toList.length : Int),
             i0, 1, 0⟩).text,
         (distLoop c.searchText.toList c.replaceText.toList
            (shortFormOf c.replaceText.toList) restIdxs
            ⟨splice inputText.toList i0 c.searchText.toList.length c.replaceText.toList,
             (c.replaceText.toList.length : Int) - (c.searchText.toList.length : Int),
             i0, 1, 0⟩).numFull,
         (distLoop c.searchText.toList c.replaceText.toList
            (shortFormOf c.replaceText.toList) restIdxs
            ⟨splice inputText.toList i0 c.searchText.toList.length c.replaceText.toList,
             (c.replaceText.toList.length : Int) - (c.searchText.toList.length : Int),
             i0, 1, 0⟩).numShort) := by
      unfold distanceSpec
      rw [hidx]
      dsimp only
      rw [← distLoop_eq_foldl]
    have hexe : executeEditChunkCommand whereStr inputText c =
        .ok (String.mk (distLoop c.searchText.toList c.replaceText.toList
            (shortFormOf c.replaceText.toList) restIdxs
            ⟨splice inputText.toList i0 c.searchText.toList.length c.replaceText.toList,
             (c.replaceText.toList.length : Int) - (c.searchText.toList.length : Int),
             i0, 1, 0⟩).text, false) := by
      unfold executeEditChunkCommand
      rw [if_neg (not_not_intro ⟨hpre, hpost, hw⟩)]
      dsimp only
      rw [hpc]
      rw [if_pos (by omega : 0 < countOccs c.searchText.toList inputText.toList)]
      rw [if_pos ⟨hd, hcount, hlen⟩]
      rw [if_neg hl]
      rw [if_neg (not_not_intro hshort)]
      rw [hidx]
      dsimp only
      rw [hsplice]
    constructor
    · rw [hexe, hds]
    · rw [hds]
      dsimp only
      rw [distLoop_counts]
      dsimp only
      have hlen1 := length_collectIdxAux c.searchText.toList inputText.toList 0 0
      rw [show collectIdxAux c.searchText.toList 0 0 inputText.toList =
          collectIdx c.searchText.toList inputText.toList from rfl, hidx] at hlen1
      simp only [List.length_cons] at hlen1
      unfold countOccs
      omega

theorem countAux_replicate_append (a : Char) (as' : List Char) (ch : Char)
    (hne : a ≠ ch) :
    ∀ (n : Nat) (rest : List Char),
      countAux (a :: as') 0 (List.replicate n ch ++ rest) =
        countAux (a :: as') 0 rest := by
  intro n
  induction n with
  | zero => intro rest; simp
  | succ m ih =>
    intro rest
    rw [List.replicate_succ, List.cons_append]
    simp only [countAux]
    rw [if_neg (by simp [List.isPrefixOf, hne])]
    exact ih rest

/-- Distance-tag command: search `ab`, replacement `Name/N` (short form `Name`). -/
def distCmd : EditCommand :=
  ⟨"d", [], [], [], [], [], [], "", "", "ab", "", "", "Name/N", "dist", ""⟩

/-- A 2503-character chunk with two far-apart occurrences of `ab`. -/
def c2WitnessText : String :=
  String.mk ('a' :: 'b' :: (List.replicate 2499 'x' ++ ['a', 'b']))

theorem c2w_count : 1 < countOccs "ab".toList c2WitnessText.toList := by
  have e1 : countOccs "ab".toList c2WitnessText.toList =
      1 + countAux "ab".toList 0 (List.replicate 2499 'x' ++ ['a', 'b']) := by
    show countAux "ab".toList 0
      ('a' :: 'b' :: (List.replicate 2499 'x' ++ ['a', 'b'])) = _
    conv_lhs => rw [countAux.eq_def]
    dsimp only
    rw [if_pos (by simp [List.isPrefixOf])]
    rw [show ("ab".toList.length - 1) = 1 from rfl]
    conv_lhs => rw [countAux.eq_def]
  rw [e1, show "ab".toList = 'a' :: ['b'] from rfl,
    countAux_replicate_append 'a' ['b'] 'x' (by decide) 2499 ['a', 'b']]
  decide

theorem c2w_len : STANDARD_DISTANCE < c2WitnessText.toList.length := by
  show STANDARD_DISTANCE < ('a' :: 'b' :: (List.replicate 2499 'x' ++ ['a', 'b'])).length
  rw [List.length_cons, List.length_cons, List.length_append, List.length_replicate]
  decide

/-- C2 witness: the distance theorem at a concrete 2503-character chunk with
two occurrences. -/
theorem c2_distance_attenuation_witness :
    ('d' ∈ distCmd.tags.toList ∧ 'l' ∉ distCmd.tags.toList ∧
      1 < countOccs distCmd.searchText.toList c2WitnessText.toList ∧
      STANDARD_DISTANCE < c2WitnessText.toList.length ∧
      '/' ∈ distCmd.replaceText.toList) ∧
    executeEditChunkCommand "GEN" c2WitnessText distCmd =
      .ok (String.mk (distanceSpec distCmd.searchText.toList
        distCmd.replaceText.toList (shortFormOf distCmd.replaceText.toList)
        c2WitnessText.toList).1, false) ∧
    (distanceSpec distCmd.searchText.toList distCmd.replaceText.toList
        (shortFormOf distCmd.replaceText.toList) c2WitnessText.toList).2.1 +
      (distanceSpec distCmd.searchText.toList distCmd.replaceText.toList
        (shortFormOf distCmd.replaceText.toList) c2WitnessText.toList).2.2 =
      countOccs distCmd.searchText.toList c2WitnessText.toList := by
  have h := c2_distance_attenuation "GEN" c2WitnessText distCmd rfl rfl
    (by decide) (by decide) (by decide) (by decide) c2w_count c2w_len
    (Or.inl (by decide))
  exact ⟨⟨by decide, by decide, c2w_count, c2w_len, by decide⟩, h.1, h.2⟩


/-! ### C4: splitUSFMMarkerFromText -/


theorem pyFindChar_eq_none_iff (c : Char) :
    ∀ l : List Char, pyFindChar c l = none ↔ ∀ x ∈ l, x ≠ c := by
  intro l
  induction l with
  | nil => simp [pyFindChar]
  | cons x rest ih =>
    simp only [pyFindChar]
    by_cases hx : x = c
    · simp [hx]
    · simp only [if_neg hx, Option.map_eq_none', ih, List.mem_cons]
      constructor
      · rintro h y (rfl | hy)
        · exact hx
        · exact h y hy
      · intro h y hy
        exact h y (Or.inr hy)

theorem pyFindChar_eq_some_iff (c : Char) :
    ∀ (l : List Char) (i : Nat), pyFindChar c l = some i ↔
      (l.get? i = some c ∧ ∀ j, j < i → l.get? j ≠ some c) := by
  intro l
  induction l with
  | nil => intro i; simp [pyFindChar]
  | cons x rest ih =>
    intro i
    simp only [pyFindChar]
    by_cases hx : x = c
    · rw [if_pos hx]
      constructor
      · intro h
        injection h with h
        subst h
        subst hx
        exact ⟨rfl, fun j hj => absurd hj (Nat.not_lt_zero j)⟩
      · rintro ⟨h1, h2⟩
        cases i with
        | zero => rfl
        | succ k =>
          exact absurd (show (x :: rest).get? 0 = some c by simp [hx])
            (h2 0 (Nat.succ_pos k))
    · rw [if_neg hx]
      cases i with
      | zero =>
        constructor
        · intro h
          rcases ho : pyFindChar c rest with _ | a <;> rw [ho] at h
          · cases h
          · simp at h
        · rintro ⟨h1, _⟩
          simp at h1
          exact absurd h1 hx
      | succ k =>
        constructor
        · intro h
          rcases ho : pyFindChar c rest with _ | a <;> rw [ho] at h
          · cases h
          · simp only [Option.map_some'] at h
            injection h with h
            have ha : a = k := by omega
            rw [ha] at ho
            obtain ⟨h1, h2⟩ := (ih k).mp ho
            refine ⟨by simpa using h1, ?_⟩
            intro j hj
            cases j with
            | zero => simp [hx]
            | succ m =>
              have := h2 m (by omega)
              simpa using this
        · rintro ⟨h1, h2⟩
          have hrest : pyFindChar c rest = some k := by
            rw [ih k]
            refine ⟨by simpa using h1, ?_⟩
            intro j hj
            have := h2 (j + 1) (by omega)
            simpa using this
          rw [hrest]
          rfl


/-- Terminator characters of the marker scan: space, asterisk, backslash. -/
def isTermCharB (ch : Char) : Bool := ch == ' ' || ch == '*' || ch == '\\'

theorem isTermCharB_true_iff (x : Char) :
    isTermCharB x = true ↔ (x = ' ' ∨ x = '*' ∨ x = '\\') := by
  simp [isTermCharB]
  tauto

theorem no_term_before (rest : List Char) (p : Nat)
    (hmin : ∀ j, j < p → ∀ x, rest.get? j = some x → isTermCharB x = false)
    (c' : Char) (hc' : isTermCharB c' = true) :
    ∀ j, j < p → rest.get? j ≠ some c' := by
  intro j hj hcontra
  have hf := hmin j hj c' hcontra
  rw [hc'] at hf
  cases hf

theorem pyFindChar_getD_gt (c' : Char) (rest : List Char) (p : Nat)
    (hlen : rest.length < DUMMY_VALUE)
    (hne : rest.get? p ≠ some c')
    (hmin : ∀ j, j < p → rest.get? j ≠ some c') :
    p < (pyFindChar c' rest).getD DUMMY_VALUE ∨
      (pyFindChar c' rest).getD DUMMY_VALUE = DUMMY_VALUE := by
  rcases hf : pyFindChar c' rest with _ | q
  · exact Or.inr rfl
  · left
    simp only [Option.getD_some]
    obtain ⟨h1, h2⟩ := (pyFindChar_eq_some_iff c' rest q).mp hf
    rcases Nat.lt_trichotomy q p with h | h | h
    · exact absurd h1 (hmin q h)
    · rw [h] at h1
      exact absurd h1 hne
    · exact h

theorem pyFindChar_getD_eq (chp : Char) (rest : List Char) (p : Nat)
    (hp : rest.get? p = some chp)
    (hmin : ∀ j, j < p → rest.get? j ≠ some chp) :
    (pyFindChar chp rest).getD DUMMY_VALUE = p := by
  rw [(pyFindChar_eq_some_iff chp rest p).mpr ⟨hp, hmin⟩]
  rfl

/-- C4: the line-marker split behaves exactly as claimed: an empty line gives
`(none, "")`; a line not starting with a backslash gives `(none, line)`;
otherwise the remainder after the leading backslash is split at its earliest
space, asterisk or backslash (for remainders shorter than the source's
`DUMMY_VALUE` sentinel): no terminator makes the whole remainder the marker
with empty text; a backslash terminator at `p` followed by `*` keeps both
characters in the marker (`take (p+2)`), an unstarred backslash leaves the
marker at `take p` with text starting at `p`; an asterisk terminator is kept
in the marker (`take (p+1)`); a space terminator is dropped
(`take p` / `drop (p+1)`). -/
theorem c4_split_marker (line : String) :
    (line = "" → splitUSFMMarkerFromText line = (none, "")) ∧
    (∀ ch rest0, line.toList = ch :: rest0 → ch ≠ '\\' →
      splitUSFMMarkerFromText line = (none, line)) ∧
    (∀ rest, line.toList = '\\' :: rest → rest.length < DUMMY_VALUE →
      ((∀ x ∈ rest, isTermCharB x = false) →
        splitUSFMMarkerFromText line = (some (String.mk rest), "")) ∧
      (∀ p chp, rest.get? p = some chp → isTermCharB chp = true →
        (∀ j, j < p → ∀ x, rest.get? j = some x → isTermCharB x = false) →
        ((chp = '\\' →
          ((p + 1 < rest.length ∧ rest.getD (p + 1) ' ' = '*') →
            splitUSFMMarkerFromText line =
              (some (String.mk (rest.take (p + 2))), String.mk (rest.drop (p + 2)))) ∧
          (¬(p + 1 < rest.length ∧ rest.getD (p + 1) ' ' = '*') →
            splitUSFMMarkerFromText line =
              (some (String.mk (rest.take p)), String.mk (rest.drop p)))) ∧
         (chp = '*' →
          splitUSFMMarkerFromText line =
            (some (String.mk (rest.take (p + 1))), String.mk (rest.drop (p + 1)))) ∧
         (chp = ' ' →
          splitUSFMMarkerFromText line =
            (some (String.mk (rest.take p)), String.mk (rest.drop (p + 1))))))) := by
  refine ⟨?_, ?_, ?_⟩
  · intro h
    subst h
    rfl
  · intro ch rest0 hline hch
    unfold splitUSFMMarkerFromText
    rw [hline]
    dsimp only
    rw [if_pos hch]
  · intro rest hline hlen
    constructor
    · intro hnone
      have hSP : (pyFindChar ' ' rest).getD DUMMY_VALUE = DUMMY_VALUE := by
        rw [(pyFindChar_eq_none_iff ' ' rest).mpr]
        · rfl
        · intro x hx heq
          have := hnone x hx
          rw [heq] at this
          simp [isTermCharB] at this
      have hAS : (pyFindChar '*' rest).getD DUMMY_VALUE = DUMMY_VALUE := by
        rw [(pyFindChar_eq_none_iff '*' rest).mpr]
        · rfl
        · intro x hx heq
          have := hnone x hx
          rw [heq] at this
          simp [isTermCharB] at this
      have hBS : (pyFindChar '\\' rest).getD DUMMY_VALUE = DUMMY_VALUE := by
        rw [(pyFindChar_eq_none_iff '\\' rest).mpr]
        · rfl
        · intro x hx heq
          have := hnone x hx
          rw [heq] at this
          simp [isTermCharB] at this
      unfold splitUSFMMarkerFromText
      rw [hline]
      dsimp only
      rw [if_neg (by simp), hSP, hAS, hBS, Nat.min_self, Nat.min_self, if_pos rfl]
    · intro p chp hgetp hterm hmin
      have hplen : p < rest.length := by
        by_contra hge
        rw [List.get?_eq_none.mpr (Nat.le_of_not_lt hge)] at hgetp
        cases hgetp
      rcases (isTermCharB_true_iff chp).mp hterm with hsp | has | hbs
      · -- space terminator
        subst hsp
        refine ⟨fun hbs' => absurd hbs' (by decide), fun has' => absurd has' (by decide), fun _ => ?_⟩
        have hSP := pyFindChar_getD_eq ' ' rest p hgetp
          (no_term_before rest p hmin ' ' (by decide))
        have hAS := pyFindChar_getD_gt '*' rest p hlen
          (by rw [hgetp]; simp)
          (no_term_before rest p hmin '*' (by decide))
        have hBS := pyFindChar_getD_gt '\\' rest p hlen
          (by rw [hgetp]; simp)
          (no_term_before rest p hmin '\\' (by decide))
        unfold splitUSFMMarkerFromText
        rw [hline]
        dsimp only
        rw [if_neg (by simp), hSP]
        have hix : min (min p ((pyFindChar '*' rest).getD DUMMY_VALUE))
            ((pyFindChar '\\' rest).getD DUMMY_VALUE) = p := by
          rcases hAS with h1 | h1 <;> rcases hBS with h2 | h2 <;> omega
        rw [hix]
        rw [if_neg (by unfold DUMMY_VALUE at hlen ⊢; omega)]
        rw [if_neg (by rcases hBS with h | h <;> unfold DUMMY_VALUE at hlen h ⊢ <;> omega)]
        rw [if_neg (by rcases hAS with h | h <;> unfold DUMMY_VALUE at hlen h ⊢ <;> omega)]
      · -- asterisk terminator
        subst has
        refine ⟨fun hbs' => absurd hbs' (by decide), fun _ => ?_, fun hsp' => absurd hsp' (by decide)⟩
        have hAS := pyFindChar_getD_eq '*' rest p hgetp
          (no_term_before rest p hmin '*' (by decide))
        have hSP := pyFindChar_getD_gt ' ' rest p hlen
          (by rw [hgetp]; simp)
          (no_term_before rest p hmin ' ' (by decide))
        have hBS := pyFindChar_getD_gt '\\' rest p hlen
          (by rw [hgetp]; simp)
          (no_term_before rest p hmin '\\' (by decide))
        unfold splitUSFMMarkerFromText
        rw [hline]
        dsimp only
        rw [if_neg (by simp), hAS]
        have hix : min (min ((pyFindChar ' ' rest).getD DUMMY_VALUE) p)
            ((pyFindChar '\\' rest).getD DUMMY_VALUE) = p := by
          rcases hSP with h1 | h1 <;> rcases hBS with h2 | h2 <;> omega
        rw [hix]
        rw [if_neg (by unfold DUMMY_VALUE at hlen ⊢; omega)]
        rw [if_neg (by rcases hBS with h | h <;> unfold DUMMY_VALUE at hlen h ⊢ <;> omega)]
        rw [if_pos rfl]
      · -- backslash terminator
        subst hbs
        refine ⟨fun _ => ?_, fun has' => absurd has' (by decide), fun hsp' => absurd hsp' (by decide)⟩
        have hBS := pyFindChar_getD_eq '\\' rest p hgetp
          (no_term_before rest p hmin '\\' (by decide))
        have hSP := pyFindChar_getD_gt ' ' rest p hlen
          (by rw [hgetp]; simp)
          (no_term_before rest p hmin ' ' (by decide))
        have hAS := pyFindChar_getD_gt '*' rest p hlen
          (by rw [hgetp]; simp)
          (no_term_before rest p hmin '*' (by decide))
        constructor
        · intro hcond
          unfold splitUSFMMarkerFromText
          rw [hline]
          dsimp only
          rw [if_neg (by simp), hBS]
          have hix : min (min ((pyFindChar ' ' rest).getD DUMMY_VALUE)
              ((pyFindChar '*' rest).getD DUMMY_VALUE)) p = p := by
            rcases hSP with h1 | h1 <;> rcases hAS with h2 | h2 <;> omega
          rw [hix]
          rw [if_neg (by unfold DUMMY_VALUE at hlen ⊢; omega)]
          rw [if_pos rfl, if_pos hcond]
        · intro hcond
          unfold splitUSFMMarkerFromText
          rw [hline]
          dsimp only
          rw [if_neg (by simp), hBS]
          have hix : min (min ((pyFindChar ' ' rest).getD DUMMY_VALUE)
              ((pyFindChar '*' rest).getD DUMMY_VALUE)) p = p := by
            rcases hSP with h1 | h1 <;> rcases hAS with h2 | h2 <;> omega
          rw [hix]
          rw [if_neg (by unfold DUMMY_VALUE at hlen ⊢; omega)]
          rw [if_pos rfl, if_neg hcond]

/-- C4 witness: the space-terminator clause at the claim's own test vector
`\v 12 In the beginning`. -/
theorem c4_split_marker_witness :
    ("\\v 12 In the beginning".toList =
        '\\' :: "v 12 In the beginning".toList) ∧
    "v 12 In the beginning".toList.get? 1 = some ' ' ∧
    splitUSFMMarkerFromText "\\v 12 In the beginning" =
      (some "v", "12 In the beginning") := by
  have h := ((c4_split_marker "\\v 12 In the beginning").2.2
      "v 12 In the beginning".toList rfl (by decide)).2 1 ' ' (by decide) (by decide)
      (by intro j hj x hx
          have hj0 : j = 0 := by omega
          subst hj0
          have hxv : x = 'v' := by
            rw [show "v 12 In the beginning".toList.get? 0 = some 'v' from rfl] at hx
            injection hx with h2
            exact h2.symm
          subst hxv
          decide)
  have h2 := h.2.2 rfl
  exact ⟨rfl, by decide, h2.trans (by decide)⟩

end SBE
